import Mathlib

/-!
Verification of the vtprotobuf repository against its specification.

Part 1 models the output of the pool feature generator (features/pool,
src/unnamed/part_000).  The generator emits, per pool-eligible message type,
a sync.Pool, a ResetVT method, a ReturnToVTPool method and a FromVTPool
function.  We embed the generated code for a representative schema that
exercises every branch of the generator's field loop:

  message ElemMsg  { int64 val = 1; bytes data = 2; }        // pool-eligible
  message PlainMsg { int64 val = 1; }                        // not pool-eligible
  message OuterMsg {                                         // pool-eligible
    repeated ElemMsg  reps      = 1;  // list, message kind, element pooled
    repeated PlainMsg rep_plain = 2;  // list, message kind, element not pooled
    repeated bytes    rep_bytes = 3;  // list, bytes kind
    bytes             s_bytes   = 4;  // singular bytes
    ElemMsg           sub       = 5;  // singular message, pooled
    int64             scalar    = 6;  // plain scalar
    oneof oneof { bytes b = 7; int64 num = 8; }  // non-synthetic oneof with a bytes variant
  }

Go slices are modeled with explicit backing storage so that the generated
code's capacity-preserving truncation (s[:0]) is observable.  Go pointers
that the generated code guards with a nil check are modeled as Option;
list elements ([]*ElemMsg entries) are modeled as values (nil elements do
not occur in any behavior the claims quantify over).  A sync.Pool is
modeled as a stack: Put pushes, Get pops or allocates a fresh zero value.
-/

/-- A Go slice: backing array `store` (the allocated capacity) and logical
length `len`; the live elements are `store.take len`. -/
structure GoSlice (α : Type) where
  store : List α
  len : Nat
deriving DecidableEq

/-- Logical contents of a slice: what indexing and for-range can reach. -/
def GoSlice.view (s : GoSlice α) : List α := s.store.take s.len

/-- Capacity of a slice: the size of its allocated backing storage. -/
def GoSlice.cap (s : GoSlice α) : Nat := s.store.length

/-- The Go expression s[:0]: length zero, backing storage retained. -/
def GoSlice.truncZero (s : GoSlice α) : GoSlice α := ⟨s.store, 0⟩

/-- A nil slice, the zero value of a slice-typed field. -/
def GoSlice.goNil : GoSlice α := ⟨[], 0⟩

/-- In-place update of every live element (indices below `len`); the
capacity region beyond `len` is untouched.  Models both a for-range loop
that mutates each element through its pointer and the builtin clear(s). -/
def GoSlice.mapView (f : α → α) (s : GoSlice α) : GoSlice α :=
  ⟨(s.store.take s.len).map f ++ s.store.drop s.len, s.len⟩

theorem GoSlice.mapView_cap (f : α → α) (s : GoSlice α) :
    (GoSlice.mapView f s).cap = s.cap := by
  simp [GoSlice.mapView, GoSlice.cap]
  omega

/-- Element message type, pool-eligible: one scalar field and one singular
bytes field. -/
structure ElemMsg where
  val : Int
  data : GoSlice Nat
deriving DecidableEq

/-- Generated ResetVT body for ElemMsg (receiver known non-nil): the field
loop saves f0 := m.Data[:0] (singular BytesKind branch), m.Reset() zeroes
every field, then m.Data = f0 reassigns the saved handle. -/
def ElemMsg.resetVT (m : ElemMsg) : ElemMsg :=
  ⟨0, GoSlice.truncZero m.data⟩

/-- Generated ReturnToVTPool for ElemMsg, with its nil-receiver guard:
if m != nil, m.ResetVT() then vtprotoPool_ElemMsg.Put(m). -/
def ElemMsg.ReturnToVTPool : Option ElemMsg → List ElemMsg → List ElemMsg
  | none, pool => pool
  | some m, pool => ElemMsg.resetVT m :: pool

/-- Element message type that is not pool-eligible; its plain generated
Reset zeroes every field. -/
structure PlainMsg where
  val : Int
deriving DecidableEq

def PlainMsg.protoReset (_ : PlainMsg) : PlainMsg := ⟨0⟩

/-- The boxed oneof variant wrapper for the bytes variant (Go: a pointer
*OuterMsg_B holding field B of type []byte).  `ptrId` models the identity of
the wrapper pointer so that reuse of the same wrapper is observable. -/
structure BytesWrapper where
  ptrId : Nat
  bytes : GoSlice Nat
deriving DecidableEq

/-- The oneof interface value of OuterMsg: the bytes variant wrapper or the
scalar variant. -/
inductive OneofVariant
  | b (w : BytesWrapper)
  | num (n : Int)
deriving DecidableEq

/-- Pool-eligible outer message covering every field shape handled by the
pool generator's field loop (see the module docstring for the schema). -/
structure OuterMsg where
  reps : GoSlice ElemMsg
  repPlain : GoSlice PlainMsg
  repBytes : GoSlice (GoSlice Nat)
  sBytes : GoSlice Nat
  sub : Option ElemMsg
  scalar : Int
  oneof : Option OneofVariant
deriving DecidableEq

/-- Zero value of OuterMsg: what the plain generated Reset produces and what
the pool's New function allocates. -/
def OuterMsg.zero : OuterMsg :=
  ⟨GoSlice.goNil, GoSlice.goNil, GoSlice.goNil, GoSlice.goNil, none, 0, none⟩

/-- Body of the generated ResetVT for OuterMsg (receiver known non-nil),
threaded with the ElemMsg pool state because ReturnToVTPool on the singular
sub field puts into that pool.  Line-by-line transcription of the code the
pool generator emits for the schema above (src/unnamed/part_000, lines
60-136). -/
def OuterMsg.resetVTBody (m : OuterMsg) (ip : List ElemMsg) : OuterMsg × List ElemMsg :=
  -- for _, mm := range m.Reps { mm.ResetVT() }   (elements pool-eligible)
  let reps1 := GoSlice.mapView ElemMsg.resetVT m.reps
  -- f0 := m.Reps[:0]
  let f0 := GoSlice.truncZero reps1
  -- for _, mm := range m.RepPlain { mm.Reset() } (elements not pool-eligible)
  let plain1 := GoSlice.mapView PlainMsg.protoReset m.repPlain
  -- f1 := m.RepPlain[:0]
  let f1 := GoSlice.truncZero plain1
  -- clear(m.RepBytes)  (each live element set to its zero value, a nil slice)
  let repBytes1 := GoSlice.mapView (fun _ => GoSlice.goNil) m.repBytes
  -- f2 := m.RepBytes[:0]
  let f2 := GoSlice.truncZero repBytes1
  -- f3 := m.SBytes[:0]
  let f3 := GoSlice.truncZero m.sBytes
  -- m.Sub.ReturnToVTPool()  (nil-safe; resets and puts into the ElemMsg pool)
  let ip1 := ElemMsg.ReturnToVTPool m.sub ip
  -- var savedOneof isOuterMsg_Oneof
  -- switch c := m.Oneof.(type) { case *OuterMsg_B: c.B = c.B[:0]; savedOneof = c }
  -- (the same wrapper, its bytes truncated in place, is kept aside)
  let savedOneof : Option OneofVariant :=
    match m.oneof with
    | some (OneofVariant.b w) => some (OneofVariant.b ⟨w.ptrId, GoSlice.truncZero w.bytes⟩)
    | _ => none
  -- m.Reset() zeroes every field; then the saved handles are reassigned:
  -- m.Reps = f0; m.RepPlain = f1; m.RepBytes = f2; m.SBytes = f3; m.Oneof = savedOneof
  (⟨f0, f1, f2, f3, none, 0, savedOneof⟩, ip1)

/-- Generated ResetVT for OuterMsg with its nil-receiver guard
(if m != nil { ... }). -/
def OuterMsg.ResetVT : Option OuterMsg → List ElemMsg → Option OuterMsg × List ElemMsg
  | none, ip => (none, ip)
  | some m, ip =>
    (some (OuterMsg.resetVTBody m ip).1, (OuterMsg.resetVTBody m ip).2)

/-- Generated ReturnToVTPool for OuterMsg with its nil-receiver guard:
if m != nil, m.ResetVT() then vtprotoPool_OuterMsg.Put(m). -/
def OuterMsg.ReturnToVTPool :
    Option OuterMsg → List OuterMsg → List ElemMsg → List OuterMsg × List ElemMsg
  | none, pl, ip => (pl, ip)
  | some m, pl, ip =>
    ((OuterMsg.resetVTBody m ip).1 :: pl, (OuterMsg.resetVTBody m ip).2)

/-- Generated OuterMsgFromVTPool: vtprotoPool_OuterMsg.Get() — pop an
instance from the pool, or allocate a fresh zero instance when empty. -/
def OuterMsgFromVTPool : List OuterMsg → OuterMsg × List OuterMsg
  | [] => (OuterMsg.zero, [])
  | x :: pl => (x, pl)

/-- C1: after ReturnToVTPool on an instance, the next FromVTPool that reuses
that instance yields one whose repeated fields and singular byte-sequence
field all read as empty (length zero, empty view) while each retains the
backing capacity the instance had before being returned. -/
theorem C1_pool_roundtrip_empty_with_capacity
    (m : OuterMsg) (pl : List OuterMsg) (ip : List ElemMsg) :
    ((OuterMsgFromVTPool (OuterMsg.ReturnToVTPool (some m) pl ip).1).1.reps.len = 0 ∧
      (OuterMsgFromVTPool (OuterMsg.ReturnToVTPool (some m) pl ip).1).1.reps.view = [] ∧
      (OuterMsgFromVTPool (OuterMsg.ReturnToVTPool (some m) pl ip).1).1.reps.cap = m.reps.cap) ∧
    ((OuterMsgFromVTPool (OuterMsg.ReturnToVTPool (some m) pl ip).1).1.repPlain.len = 0 ∧
      (OuterMsgFromVTPool (OuterMsg.ReturnToVTPool (some m) pl ip).1).1.repPlain.view = [] ∧
      (OuterMsgFromVTPool (OuterMsg.ReturnToVTPool (some m) pl ip).1).1.repPlain.cap = m.repPlain.cap) ∧
    ((OuterMsgFromVTPool (OuterMsg.ReturnToVTPool (some m) pl ip).1).1.repBytes.len = 0 ∧
      (OuterMsgFromVTPool (OuterMsg.ReturnToVTPool (some m) pl ip).1).1.repBytes.view = [] ∧
      (OuterMsgFromVTPool (OuterMsg.ReturnToVTPool (some m) pl ip).1).1.repBytes.cap = m.repBytes.cap) ∧
    ((OuterMsgFromVTPool (OuterMsg.ReturnToVTPool (some m) pl ip).1).1.sBytes.len = 0 ∧
      (OuterMsgFromVTPool (OuterMsg.ReturnToVTPool (some m) pl ip).1).1.sBytes.view = [] ∧
      (OuterMsgFromVTPool (OuterMsg.ReturnToVTPool (some m) pl ip).1).1.sBytes.cap = m.sBytes.cap) := by
  refine ⟨⟨rfl, rfl, ?_⟩, ⟨rfl, rfl, ?_⟩, ⟨rfl, rfl, ?_⟩, ⟨rfl, rfl, rfl⟩⟩
  · exact GoSlice.mapView_cap ElemMsg.resetVT m.reps
  · exact GoSlice.mapView_cap PlainMsg.protoReset m.repPlain
  · exact GoSlice.mapView_cap (fun _ => GoSlice.goNil) m.repBytes

/-- Concrete instance for the C2 counterexample: the repeated pool-eligible
message field holds one live element with one further allocated slot;
everything else is empty, and the ElemMsg pool starts empty. -/
def OuterMsg.c2inst : OuterMsg :=
  ⟨⟨[⟨5, ⟨[1, 2], 2⟩⟩, ⟨0, ⟨[], 0⟩⟩], 1⟩,
    GoSlice.goNil, GoSlice.goNil, GoSlice.goNil, none, 0, none⟩

/-- C2 counterexample: resetting an instance whose repeated pool-eligible
message field holds one element leaves the element type's pool empty — the
generated code calls ResetVT on the element, never ReturnToVTPool, so no
element is ever handed to its own pool, refuting the claim as stated. -/
theorem C2_counterexample :
    (OuterMsg.resetVTBody OuterMsg.c2inst []).2 = [] ∧
    OuterMsg.c2inst.reps.len = 1 := by
  exact ⟨rfl, rfl⟩

/-- C2 (amended): during the generated reset, every live element of a
repeated pool-eligible nested-message field is recursively reset in place
(via the element's ResetVT), then the list is truncated to zero length with
its backing storage retained; the elements are not placed into the element
type's pool — the only contribution to that pool is the singular
pool-eligible message field. -/
theorem C2_repeated_elements_reset_in_place (m : OuterMsg) (ip : List ElemMsg) :
    (OuterMsg.resetVTBody m ip).1.reps.len = 0 ∧
    (OuterMsg.resetVTBody m ip).1.reps.store =
      (m.reps.store.take m.reps.len).map ElemMsg.resetVT ++ m.reps.store.drop m.reps.len ∧
    (OuterMsg.resetVTBody m ip).1.reps.cap = m.reps.cap ∧
    (OuterMsg.resetVTBody m ip).2 = ElemMsg.ReturnToVTPool m.sub ip := by
  refine ⟨rfl, rfl, ?_, rfl⟩
  exact GoSlice.mapView_cap ElemMsg.resetVT m.reps

/-- C3: when the active oneof variant is the bytes variant, the generated
reset keeps the very same wrapper (same pointer identity) aside across the
generic clear and reassigns it onto the oneof slot, with its byte contents
truncated to length zero and its capacity retained. -/
theorem C3_oneof_bytes_wrapper_reused (m : OuterMsg) (ip : List ElemMsg)
    (w : BytesWrapper) (h : m.oneof = some (OneofVariant.b w)) :
    (OuterMsg.resetVTBody m ip).1.oneof =
      some (OneofVariant.b ⟨w.ptrId, GoSlice.truncZero w.bytes⟩) ∧
    (GoSlice.truncZero w.bytes).len = 0 ∧
    (GoSlice.truncZero w.bytes).cap = w.bytes.cap := by
  refine ⟨?_, rfl, rfl⟩
  simp [OuterMsg.resetVTBody, h]

theorem C3_oneof_bytes_wrapper_reused_witness :
    (OuterMsg.resetVTBody
        ⟨GoSlice.goNil, GoSlice.goNil, GoSlice.goNil, GoSlice.goNil, none, 0,
          some (OneofVariant.b ⟨7, ⟨[9, 9, 9], 2⟩⟩)⟩ []).1.oneof =
      some (OneofVariant.b ⟨7, GoSlice.truncZero ⟨[9, 9, 9], 2⟩⟩) ∧
    (GoSlice.truncZero (⟨[9, 9, 9], 2⟩ : GoSlice Nat)).len = 0 ∧
    (GoSlice.truncZero (⟨[9, 9, 9], 2⟩ : GoSlice Nat)).cap =
      (⟨[9, 9, 9], 2⟩ : GoSlice Nat).cap :=
  C3_oneof_bytes_wrapper_reused
    ⟨GoSlice.goNil, GoSlice.goNil, GoSlice.goNil, GoSlice.goNil, none, 0,
      some (OneofVariant.b ⟨7, ⟨[9, 9, 9], 2⟩⟩)⟩ [] ⟨7, ⟨[9, 9, 9], 2⟩⟩ rfl

/-- C9: the generated ResetVT and ReturnToVTPool both start with an
if m != nil guard, so on a nil receiver ResetVT mutates nothing (and touches
no pool) and ReturnToVTPool neither resets anything nor puts an instance
into the pool. -/
theorem C9_nil_receiver_noop (pl : List OuterMsg) (ip : List ElemMsg) :
    OuterMsg.ResetVT none ip = (none, ip) ∧
    OuterMsg.ReturnToVTPool none pl ip = (pl, ip) ∧
    ElemMsg.ReturnToVTPool none ip = ip :=
  ⟨rfl, rfl, rfl⟩

/-!
Part 2 models the transport codec adapters: the gRPC Codec
(src/unnamed/part_002) and the drpc helpers (src/codec/drpc/drpc_codec.go).
Both are embedded directly from the source.  The generated MarshalVT,
UnmarshalVT and ResetVT methods they call are not under src/, so those are
modelled from the spec: UnmarshalVT has merge semantics (singular fields
last-occurrence-wins, the target is never cleared by decode itself),
MarshalVT skips implicit-presence fields holding their zero value, and the
reset operations zero every field.  The message used is the
MemoryPoolExtension shape from the codec test (Foo1 string = 1,
Foo2 int64 = 2); bytes are modeled as naturals below 256.
-/

/-- Decode error kinds, mirroring the protohelpers error values named in
src/unnamed/part_004 (ErrInvalidLength, ErrIntOverflow,
ErrUnexpectedEndOfGroup, ErrInvalidUTF8) plus truncated-input EOF. -/
inductive DecodeErr
  | invalidLength
  | intOverflow
  | unexpectedEOF
  | unexpectedEndOfGroup
  | invalidUTF8
deriving DecidableEq

/-- Modelled from the spec: variable-length integer reader (base-128,
little-endian); a truncated or overlong (beyond 64 bits of shift) varint is
rejected.  Returns the value and the remaining bytes. -/
def readVarintAux : List Nat → Nat → Nat → Except DecodeErr (Nat × List Nat)
  | [], _, _ => Except.error DecodeErr.unexpectedEOF
  | b :: rest, shift, acc =>
    if 64 ≤ shift then Except.error DecodeErr.intOverflow
    else if b < 128 then Except.ok (acc + b * 2 ^ shift, rest)
    else readVarintAux rest (shift + 7) (acc + (b - 128) * 2 ^ shift)

def readVarint (bytes : List Nat) : Except DecodeErr (Nat × List Nat) :=
  readVarintAux bytes 0 0

/-- Modelled from the spec: length-delimited payload reader — a varint
length, then that many payload bytes; a declared span exceeding the
remaining input is rejected with the invalid-length kind. -/
def readLenDelim (bytes : List Nat) : Except DecodeErr (List Nat × List Nat) :=
  match readVarint bytes with
  | Except.error e => Except.error e
  | Except.ok (n, rest) =>
    if n ≤ rest.length then Except.ok (rest.take n, rest.drop n)
    else Except.error DecodeErr.invalidLength

/-- Modelled from the spec: skip an unrecognized field according to its wire
type's framing rules (0 varint, 1 eight bytes, 2 length-delimited, 5 four
bytes; group wire types are not part of the modeled schemas). -/
def skipWire : Nat → List Nat → Except DecodeErr (List Nat)
  | 0, rest =>
    match readVarint rest with
    | Except.error e => Except.error e
    | Except.ok (_, r2) => Except.ok r2
  | 1, rest =>
    if 8 ≤ rest.length then Except.ok (rest.drop 8)
    else Except.error DecodeErr.unexpectedEOF
  | 2, rest =>
    match readLenDelim rest with
    | Except.error e => Except.error e
    | Except.ok (_, r2) => Except.ok r2
  | 5, rest =>
    if 4 ≤ rest.length then Except.ok (rest.drop 4)
    else Except.error DecodeErr.unexpectedEOF
  | _, _ => Except.error DecodeErr.invalidLength

/-- Fuel-bounded varint encoder body; the fuel never runs out for the entry
point below because a value n needs at most n division steps. -/
def encodeVarintAux : Nat → Nat → List Nat
  | 0, n => [n]
  | fuel + 1, n => if n < 128 then [n] else (n % 128 + 128) :: encodeVarintAux fuel (n / 128)

/-- Modelled from the spec: varint encoder (little-endian base-128). -/
def encodeVarint (n : Nat) : List Nat := encodeVarintAux n n

/-- The MemoryPoolExtension test message used by the codec test: a string
field Foo1 (field number 1, modeled by its byte contents) and an integer
field Foo2 (field number 2), both implicit presence. -/
structure MemoryPoolExtension where
  foo1 : List Nat
  foo2 : Nat
deriving DecidableEq

def MemoryPoolExtension.zero : MemoryPoolExtension := ⟨[], 0⟩

/-- Generated ResetVT for MemoryPoolExtension: the pool generator's field
loop preserves no handle for this shape (no list and no singular bytes
field), so the method reduces to the plain Reset — every field zeroed. -/
def MemoryPoolExtension.resetVT (_ : MemoryPoolExtension) : MemoryPoolExtension := ⟨[], 0⟩

/-- Plain generated proto Reset: every field zeroed. -/
def MemoryPoolExtension.protoReset (_ : MemoryPoolExtension) : MemoryPoolExtension := ⟨[], 0⟩

/-- Modelled from the spec: the generated merge-semantics UnmarshalVT loop
for MemoryPoolExtension — singular fields are last-occurrence-wins,
unrecognized fields are skipped by wire type, the target is mutated in place
and decode itself never clears it.  Fuel is the input length plus one, which
suffices because every iteration consumes at least one byte. -/
def MemoryPoolExtension.unmarshalLoop :
    Nat → List Nat → MemoryPoolExtension → MemoryPoolExtension × Option DecodeErr
  | _, [], m => (m, none)
  | 0, _ :: _, m => (m, some DecodeErr.unexpectedEOF)
  | fuel + 1, b :: bs, m =>
    match readVarint (b :: bs) with
    | Except.error e => (m, some e)
    | Except.ok (tag, rest) =>
      if tag / 8 = 1 ∧ tag % 8 = 2 then
        match readLenDelim rest with
        | Except.error e => (m, some e)
        | Except.ok (payload, r2) =>
          MemoryPoolExtension.unmarshalLoop fuel r2 ⟨payload, m.foo2⟩
      else if tag / 8 = 2 ∧ tag % 8 = 0 then
        match readVarint rest with
        | Except.error e => (m, some e)
        | Except.ok (v, r2) =>
          MemoryPoolExtension.unmarshalLoop fuel r2 ⟨m.foo1, v⟩
      else
        match skipWire (tag % 8) rest with
        | Except.error e => (m, some e)
        | Except.ok r2 => MemoryPoolExtension.unmarshalLoop fuel r2 m

/-- Generated UnmarshalVT: merge the wire bytes into the given target.
Returns the post-state of the target and the error, if any (on error the
target is left partially populated, as the spec requires). -/
def MemoryPoolExtension.unmarshalVT (data : List Nat) (m : MemoryPoolExtension) :
    MemoryPoolExtension × Option DecodeErr :=
  MemoryPoolExtension.unmarshalLoop (data.length + 1) data m

/-- Modelled from the spec: generated MarshalVT for MemoryPoolExtension —
implicit-presence fields holding their zero value are skipped entirely,
others are emitted with their tag (field 1 length-delimited: tag byte 10;
field 2 varint: tag byte 16). -/
def MemoryPoolExtension.marshalVT (m : MemoryPoolExtension) : List Nat :=
  (if m.foo1.length = 0 then [] else 10 :: encodeVarint m.foo1.length ++ m.foo1) ++
    (if m.foo2 = 0 then [] else 16 :: encodeVarint m.foo2)

/-- A value handed to the gRPC codec: either a generated message
implementing both MarshalVT and UnmarshalVT (`hasResetVT` records whether it
also implements ResetVT; every proto message implements Reset), or any other
value, which implements neither helper. -/
inductive GrpcValue
  | vt (hasResetVT : Bool) (m : MemoryPoolExtension)
  | other (t : Nat)
deriving DecidableEq

inductive CodecErr
  | notVtMessage
  | decodeFailed (e : DecodeErr)
deriving DecidableEq

/-- Embedding of Codec.Marshal (src/unnamed/part_002, lines 23-29):
type-assert vtprotoMessage; on failure return an error and nil bytes,
otherwise MarshalVT.  Total, so it never panics. -/
def Codec.Marshal : GrpcValue → Except CodecErr (List Nat)
  | GrpcValue.vt _ m => Except.ok (MemoryPoolExtension.marshalVT m)
  | GrpcValue.other _ => Except.error CodecErr.notVtMessage

/-- Embedding of Codec.Unmarshal (src/unnamed/part_002, lines 31-44):
type-assert vtprotoMessage (error, target untouched, on failure); otherwise
ResetVT when available else Reset, then UnmarshalVT.  Returns the post-state
of the target and the error, if any.  Total, so it never panics. -/
def Codec.Unmarshal (data : List Nat) : GrpcValue → GrpcValue × Option CodecErr
  | GrpcValue.vt hasResetVT m =>
    let m0 := if hasResetVT then MemoryPoolExtension.resetVT m
              else MemoryPoolExtension.protoReset m
    let r := MemoryPoolExtension.unmarshalVT data m0
    (GrpcValue.vt hasResetVT r.1, r.2.map CodecErr.decodeFailed)
  | GrpcValue.other t => (GrpcValue.other t, some CodecErr.notVtMessage)

/-- Embedding of drpc.Unmarshal (src/codec/drpc/drpc_codec.go, lines 25-34)
on a message with the vtprotobuf helpers: ResetVT when available else Reset,
then UnmarshalVT. -/
def Drpc.Unmarshal (buf : List Nat) (hasResetVT : Bool) (m : MemoryPoolExtension) :
    MemoryPoolExtension × Option DecodeErr :=
  MemoryPoolExtension.unmarshalVT buf
    (if hasResetVT then MemoryPoolExtension.resetVT m else MemoryPoolExtension.protoReset m)

/-- C4: both the gRPC and the drpc codec Unmarshal fully reset the target
(ResetVT when available, else Reset) before unmarshaling, so the result is
exactly the decode of the bytes into a fresh instance, independent of any
content the target held before the call — replace semantics, never merge. -/
theorem C4_codec_unmarshal_replaces
    (data : List Nat) (hasResetVT : Bool) (m : MemoryPoolExtension) :
    Codec.Unmarshal data (GrpcValue.vt hasResetVT m) =
      Codec.Unmarshal data (GrpcValue.vt hasResetVT MemoryPoolExtension.zero) ∧
    (Codec.Unmarshal data (GrpcValue.vt hasResetVT m)).1 =
      GrpcValue.vt hasResetVT (MemoryPoolExtension.unmarshalVT data MemoryPoolExtension.zero).1 ∧
    Drpc.Unmarshal data hasResetVT m =
      MemoryPoolExtension.unmarshalVT data MemoryPoolExtension.zero := by
  cases hasResetVT <;> exact ⟨rfl, rfl, rfl⟩

/-- C10: for a value that does not implement both MarshalVT and UnmarshalVT,
the gRPC Codec's Marshal returns an error carrying no bytes and its
Unmarshal returns an error with the target value unmodified; both are total
functions, so neither panics. -/
theorem C10_non_vt_value_errors (t : Nat) (data : List Nat) :
    Codec.Marshal (GrpcValue.other t) = Except.error CodecErr.notVtMessage ∧
    Codec.Unmarshal data (GrpcValue.other t) = (GrpcValue.other t, some CodecErr.notVtMessage) :=
  ⟨rfl, rfl⟩

/-!
Part 3 models strict-mode string decoding (claim C5).  The generated
UnmarshalVT for the proto3opt test message and the protohelpers package are
not under src/; they are modelled from the spec: a strict-mode text field's
payload is validated for well-formed text encoding at decode time, and
invalid input fails immediately with the distinguishable ErrInvalidUTF8
kind.  The message is OptionalFieldInProto3's optional_string field at
field number 14 (tag byte 114), as in TestInvalidUTF8Rejected.
-/

/-- Whether a byte is a UTF-8 continuation byte (10xxxxxx). -/
def utf8Cont (c : Nat) : Bool := decide (128 ≤ c ∧ c ≤ 191)

/-- Modelled from the spec: one code-point step of well-formed text (UTF-8)
validation.  Given the lead byte and the following bytes, return the bytes
remaining after one well-formed encoded code point, or none when the input
is not well-formed (invalid lead bytes, truncated sequences, overlong forms
and surrogate ranges all rejected). -/
def utf8Step (b : Nat) (rest : List Nat) : Option (List Nat) :=
  if b ≤ 127 then some rest
  else
    match rest with
    | [] => none
    | c :: r2 =>
      if 194 ≤ b ∧ b ≤ 223 then
        if utf8Cont c then some r2 else none
      else
        match r2 with
        | [] => none
        | d :: r3 =>
          if b = 224 then
            if (160 ≤ c ∧ c ≤ 191) ∧ utf8Cont d then some r3 else none
          else if (225 ≤ b ∧ b ≤ 236) ∨ b = 238 ∨ b = 239 then
            if utf8Cont c ∧ utf8Cont d then some r3 else none
          else if b = 237 then
            if (128 ≤ c ∧ c ≤ 159) ∧ utf8Cont d then some r3 else none
          else
            match r3 with
            | [] => none
            | e :: r4 =>
              if b = 240 then
                if (144 ≤ c ∧ c ≤ 191) ∧ utf8Cont d ∧ utf8Cont e then some r4 else none
              else if 241 ≤ b ∧ b ≤ 243 then
                if utf8Cont c ∧ utf8Cont d ∧ utf8Cont e then some r4 else none
              else if b = 244 then
                if (128 ≤ c ∧ c ≤ 143) ∧ utf8Cont d ∧ utf8Cont e then some r4 else none
              else none

/-- Well-formedness loop; fuel is the byte count plus one, sufficient since
every step consumes at least the lead byte. -/
def validUtf8Loop : Nat → List Nat → Bool
  | _, [] => true
  | 0, _ :: _ => false
  | fuel + 1, b :: rest =>
    match utf8Step b rest with
    | none => false
    | some r2 => validUtf8Loop fuel r2

/-- Modelled from the spec: well-formed text encoding check, the model of
protohelpers.ValidateUTF8. -/
def validUtf8 (bytes : List Nat) : Bool := validUtf8Loop (bytes.length + 1) bytes

/-- The proto3opt test message, reduced to the field the claim is about:
optional_string at field number 14, explicit presence. -/
structure OptionalFieldInProto3 where
  optionalString : Option (List Nat)
deriving DecidableEq

/-- Modelled from the spec: the generated strict-mode UnmarshalVT loop for
OptionalFieldInProto3.  Field 14 with wire type 2 reads a length-delimited
payload and validates it for well-formed text; invalid input fails
immediately with the distinguishable invalid-encoding kind.  Other fields
are skipped by wire type. -/
def OptionalFieldInProto3.unmarshalLoop :
    Nat → List Nat → OptionalFieldInProto3 → OptionalFieldInProto3 × Option DecodeErr
  | _, [], m => (m, none)
  | 0, _ :: _, m => (m, some DecodeErr.unexpectedEOF)
  | fuel + 1, b :: bs, m =>
    match readVarint (b :: bs) with
    | Except.error e => (m, some e)
    | Except.ok (tag, rest) =>
      if tag / 8 = 14 ∧ tag % 8 = 2 then
        match readLenDelim rest with
        | Except.error e => (m, some e)
        | Except.ok (payload, r2) =>
          if validUtf8 payload then
            OptionalFieldInProto3.unmarshalLoop fuel r2 ⟨some payload⟩
          else (m, some DecodeErr.invalidUTF8)
      else
        match skipWire (tag % 8) rest with
        | Except.error e => (m, some e)
        | Except.ok r2 => OptionalFieldInProto3.unmarshalLoop fuel r2 m

/-- Generated UnmarshalVT on a fresh target, as in the test. -/
def OptionalFieldInProto3.unmarshalVT (data : List Nat) :
    OptionalFieldInProto3 × Option DecodeErr :=
  OptionalFieldInProto3.unmarshalLoop (data.length + 1) data ⟨none⟩

/-- C5: decoding [114, 4, 0xFF, 0xFE, 0xFD, 0xFC] for the strict-mode string
field at number 14 fails with the distinguishable ErrInvalidUTF8 kind; the
same tag and length with a well-formed ASCII payload succeeds and yields
that text; and the invalid-encoding kind is distinct from every
malformed-input kind. -/
theorem C5_invalid_utf8_rejected :
    OptionalFieldInProto3.unmarshalVT [114, 4, 255, 254, 253, 252] =
      (⟨none⟩, some DecodeErr.invalidUTF8) ∧
    OptionalFieldInProto3.unmarshalVT [114, 4, 116, 101, 120, 116] =
      (⟨some [116, 101, 120, 116]⟩, none) ∧
    DecodeErr.invalidUTF8 ≠ DecodeErr.invalidLength ∧
    DecodeErr.invalidUTF8 ≠ DecodeErr.intOverflow ∧
    DecodeErr.invalidUTF8 ≠ DecodeErr.unexpectedEOF := by
  refine ⟨rfl, rfl, ?_, ?_, ?_⟩ <;> decide

/-!
Part 4 models field presence for encoding (claims C7 and C8).  The generated
MarshalVT and UnmarshalVT bodies for the proto3opt and editions test
messages are not under src/; they are modelled from the spec's omission
rules: an implicit-presence field holding its zero value is skipped entirely
(no tag emitted), an explicit-presence field is emitted whenever its
optional slot is non-absent, irrespective of value.
-/

/-- Message with one implicit-presence bytes field (field number 15, tag
byte 122).  The container is Option: none models a nil Go slice, some []
an allocated empty one; under implicit presence both read as the zero
value, an empty byte sequence. -/
structure ImplicitBytesMsg where
  dataBytes : Option (List Nat)
deriving DecidableEq

/-- Modelled from the spec: generated MarshalVT for ImplicitBytesMsg — the
field is emitted only when its length is positive (a nil container and an
empty container both have length zero and are skipped). -/
def ImplicitBytesMsg.marshalVT (m : ImplicitBytesMsg) : List Nat :=
  let bs := m.dataBytes.getD []
  if bs.length = 0 then [] else 122 :: encodeVarint bs.length ++ bs

/-- Modelled from the spec: the generic reflective encoder for the same
message — an implicit-presence field holding its zero value is skipped
entirely; a non-zero byte sequence uses length-delimited framing (tag, then
a varint length, then the payload). -/
def reflectMarshalImplicitBytes (m : ImplicitBytesMsg) : List Nat :=
  match m.dataBytes with
  | none => []
  | some bs => if bs.length = 0 then [] else 122 :: encodeVarint bs.length ++ bs

/-- C7: for an implicit-presence byte-sequence field, an instance holding an
absent (nil) container and an instance holding an explicitly empty
container produce byte-identical encoded output, and the specialized
encoder's output byte-equals the generic reflective encoder's output on
every instance (in particular on those two). -/
theorem C7_absent_equals_empty_bytes :
    ImplicitBytesMsg.marshalVT ⟨none⟩ = ImplicitBytesMsg.marshalVT ⟨some []⟩ ∧
    (∀ m : ImplicitBytesMsg, ImplicitBytesMsg.marshalVT m = reflectMarshalImplicitBytes m) := by
  refine ⟨rfl, ?_⟩
  intro m
  rcases m with ⟨d⟩
  cases d <;> rfl

/-- Message with one implicit-presence integer field (number 1, tag byte 8)
and one explicit-presence integer field (number 2, tag byte 16), matching
the editions test pair ImplicitFieldPresence and ExplicitFieldPresence. -/
structure PresenceMsg where
  impField : Nat
  expField : Option Nat
deriving DecidableEq

def PresenceMsg.zero : PresenceMsg := ⟨0, none⟩

/-- Modelled from the spec: encoding of the implicit-presence field —
skipped entirely (no tag) when holding the zero value. -/
def PresenceMsg.encImp (v : Nat) : List Nat :=
  if v = 0 then [] else 8 :: encodeVarint v

/-- Modelled from the spec: encoding of the explicit-presence field —
emitted whenever the optional slot is non-absent, irrespective of the
value, so an explicitly-present zero still appears on the wire. -/
def PresenceMsg.encExp : Option Nat → List Nat
  | none => []
  | some v => 16 :: encodeVarint v

/-- Modelled from the spec: generated MarshalVT for PresenceMsg. -/
def PresenceMsg.marshalVT (m : PresenceMsg) : List Nat :=
  PresenceMsg.encImp m.impField ++ PresenceMsg.encExp m.expField

/-- Modelled from the spec: generated merge-semantics UnmarshalVT loop for
PresenceMsg — field 1 assigns the value directly, field 2 assigns a
non-absent reference to the value. -/
def PresenceMsg.unmarshalLoop :
    Nat → List Nat → PresenceMsg → PresenceMsg × Option DecodeErr
  | _, [], m => (m, none)
  | 0, _ :: _, m => (m, some DecodeErr.unexpectedEOF)
  | fuel + 1, b :: bs, m =>
    match readVarint (b :: bs) with
    | Except.error e => (m, some e)
    | Except.ok (tag, rest) =>
      if tag / 8 = 1 ∧ tag % 8 = 0 then
        match readVarint rest with
        | Except.error e => (m, some e)
        | Except.ok (v, r2) => PresenceMsg.unmarshalLoop fuel r2 ⟨v, m.expField⟩
      else if tag / 8 = 2 ∧ tag % 8 = 0 then
        match readVarint rest with
        | Except.error e => (m, some e)
        | Except.ok (v, r2) => PresenceMsg.unmarshalLoop fuel r2 ⟨m.impField, some v⟩
      else
        match skipWire (tag % 8) rest with
        | Except.error e => (m, some e)
        | Except.ok r2 => PresenceMsg.unmarshalLoop fuel r2 m

/-- Generated UnmarshalVT on a fresh target. -/
def PresenceMsg.unmarshalVT (data : List Nat) : PresenceMsg × Option DecodeErr :=
  PresenceMsg.unmarshalLoop (data.length + 1) data PresenceMsg.zero

/-- C8: an implicit-presence field holding zero is omitted from the wire (no
tag; the whole message with both fields unset encodes to the empty stream)
and decoding that stream yields the zero value, indistinguishable from never
set; an explicit-presence field is emitted whenever non-absent irrespective
of value — an explicitly-present zero appears on the wire — and decodes back
to a non-absent reference to zero, distinguishable from an absent field. -/
theorem C8_presence_omission_and_emission :
    (∀ e : Option Nat, PresenceMsg.marshalVT ⟨0, e⟩ = PresenceMsg.encExp e) ∧
    PresenceMsg.unmarshalVT [] = (⟨0, none⟩, none) ∧
    (∀ v : Nat, PresenceMsg.encExp (some v) = 16 :: encodeVarint v) ∧
    PresenceMsg.marshalVT ⟨0, some 0⟩ = [16, 0] ∧
    PresenceMsg.unmarshalVT (PresenceMsg.marshalVT ⟨0, some 0⟩) = (⟨0, some 0⟩, none) ∧
    (⟨0, some 0⟩ : PresenceMsg) ≠ ⟨0, none⟩ := by
  refine ⟨?_, rfl, ?_, rfl, rfl, by decide⟩
  · intro e
    simp [PresenceMsg.marshalVT, PresenceMsg.encImp]
  · intro v
    rfl

/-!
Part 5 models the determinism of the pool generator's text emission for
oneof-contained byte-sequence variants (claim C6).  In src/unnamed/part_000
the fields are first grouped into a Go map keyed by oneof name (line 105)
and the save blocks (lines 110-119) and restore lines (lines 133-135) are
then produced by ranging over that map.  Go map iteration order is
unspecified and varies between runs, so the emission is modeled as a
function of the association list in iteration order; two runs correspond to
two permutations of the same grouping.  Line content is abbreviated, one
list entry per generated line.
-/

/-- The save block emitted per oneof group, in iteration order: a
saved-wrapper declaration and a type switch with, per bytes variant, a case
label, the in-place truncation of the wrapper's bytes, and the assignment
keeping the wrapper aside. -/
def poolOneofSaveText (groups : List (String × List String)) : List String :=
  groups.flatMap fun gf =>
    ("var saved" ++ gf.1) ::
      ("switch c := m." ++ gf.1) ::
        gf.2.flatMap fun f =>
          ["case " ++ f, "c." ++ f ++ " = c." ++ f ++ "[:0]", "saved" ++ gf.1 ++ " = c"]

/-- The restore lines emitted after the generic clear, in the iteration
order of a second, independent ranging over the rebuilt map. -/
def poolOneofRestoreText (groups : List (String × List String)) : List String :=
  groups.map fun gf => "m." ++ gf.1 ++ " = saved" ++ gf.1

/-- The full oneof-bytes portion of the generated ResetVT text: save blocks
in one map-iteration order, restore lines in another. -/
def poolOneofText (saveOrder restoreOrder : List (String × List String)) : List String :=
  poolOneofSaveText saveOrder ++ poolOneofRestoreText restoreOrder

/-- C6: the claim that two runs of the generator emit identical output text
fails for the pool feature — for a message whose bytes variants live in two
distinct oneof groups, two legitimate iteration orders of the same grouping
map (which Go does not keep stable across runs) produce different generated
text in different declaration order. -/
theorem C6_oneof_map_order_changes_output :
    ([("GroupA", ["FldA"]), ("GroupB", ["FldB"])] : List (String × List String)).Perm
        [("GroupB", ["FldB"]), ("GroupA", ["FldA"])] ∧
    poolOneofText [("GroupA", ["FldA"]), ("GroupB", ["FldB"])]
        [("GroupA", ["FldA"]), ("GroupB", ["FldB"])] ≠
      poolOneofText [("GroupB", ["FldB"]), ("GroupA", ["FldA"])]
        [("GroupB", ["FldB"]), ("GroupA", ["FldA"])] := by
  constructor
  · exact List.Perm.swap _ _ _
  · decide
